import Mathlib

/-!
Verification of `scripts/recon_cutsky.py` from the `optimalrecon` repository.

The script is an orchestration driver: it parses arguments, resolves bias
and redshift limits, reads catalogs, converts sky coordinates to Cartesian
positions, drives the lifecycle of an external reconstruction object
(construct, assign data, assign randoms, set density contrast, run, read
shifted positions) and writes the shifted catalogs back to disk.

Two embeddings are used below.

1. A trace model: `run_reconstruction_trace` records, in source order, every
   external-library call and every file-system operation performed by
   `run_reconstruction`, with the payloads that matter to the claims
   (which positions are passed, which `field` string is used, which file is
   written, in which format, with which overwrite flag).  The `root` flag
   models `mpicomm is None or mpicomm.rank == 0`.

2. A value model: `shiftedCatalog` computes, for the root rank, the table
   that is written out for one catalog file, over abstract scalar and point
   types and abstract elementwise transforms `s2c` (sky to cartesian),
   `c2s` (cartesian to sky), `distance` and `d2z` (distance to redshift).
-/

namespace ReconCutsky

/-- The reconstruction classes the driver can delegate to
(`MultiGridReconstruction`, `IterativeFFTReconstruction`,
`IterativeFFTParticleReconstruction` from the external library). -/
inductive ReconAlg where
  | MultiGridReconstruction
  | IterativeFFTReconstruction
  | IterativeFFTParticleReconstruction
deriving DecidableEq, BEq, Repr

/-- The dictionary `{'MG': ..., 'IFT': ..., 'IFTP': ...}` used in `__main__`
to select the reconstruction class from `args.algorithm`; a key outside the
dictionary raises, modelled by `none`. -/
def algorithmTable (s : String) : Option ReconAlg :=
  if s = "MG" then some ReconAlg.MultiGridReconstruction
  else if s = "IFT" then some ReconAlg.IterativeFFTReconstruction
  else if s = "IFTP" then some ReconAlg.IterativeFFTParticleReconstruction
  else none

/-- The `choices` list of the `--convention` CLI argument. -/
def conventionChoices : List String := ["reciso", "recsym"]

/-- The `choices` list of the `--algorithm` CLI argument. -/
def algorithmChoices : List String := ["MG", "IFT", "IFTP"]

/-- The argument of `read_shifted_positions` for the data catalog:
the string tag `'data'` for `IterativeFFTParticleReconstruction`,
otherwise the data position array (`none` on a non-root rank). -/
inductive ShiftArg where
  | tag (s : String)
  | positions (p : Option Unit)
deriving DecidableEq, BEq, Repr

/-- One externally visible step of `run_reconstruction`: a file read, an
external-library call, a directory creation or a file write.  Position and
weight payloads are recorded as `Option Unit`: `none` models Python `None`,
`some ()` models an actual array. -/
inductive Event where
  | readCatalog (fn : String)
  | readPositionsWeights (fn : String)
  | construct (positions : Option Unit)
  | assignData (positions weights : Option Unit)
  | assignRandoms (positions weights : Option Unit)
  | setDensityContrast
  | runAlgo
  | readShiftedData (arg : ShiftArg) (field : String)
  | readShiftedRandoms (positions : Option Unit) (field : String)
  | makeDir (dir : String)
  | write (fn : String) (format : String) (overwrite : Bool)
deriving DecidableEq, BEq, Repr

/-- Line 59: `field = 'rsd' if convention == 'rsd' else 'disp+rsd'`. -/
def dataField (convention : String) : String :=
  if convention = "rsd" then "rsd" else "disp+rsd"

/-- Line 75: `field = 'disp+rsd' if convention == 'recsym' else 'disp'`. -/
def randomsField (convention : String) : String :=
  if convention = "recsym" then "disp+rsd" else "disp"

/-- The position and weight arrays as held by a rank: an array on the root
rank, Python `None` elsewhere. -/
def rootPositions (root : Bool) : Option Unit :=
  if root then some () else none

/-- The sequence of external-library calls and file-system operations
performed by one call of `run_reconstruction`, in source order.
`root` is `mpicomm is None or mpicomm.rank == 0`; `dirname` stands for
`os.path.dirname`.  `randoms_fn` is already a list (line 24 wraps a scalar
into a one-element list before this point). -/
def run_reconstruction_trace (alg : ReconAlg) (root : Bool) (convention : String)
    (data_fn : String) (randoms_fn : List String)
    (data_rec_fn : String) (randoms_rec_fn : List String)
    (dirname : String → String) : List Event :=
  let pos : Option Unit := rootPositions root
  (if root then [Event.readCatalog data_fn, Event.readPositionsWeights data_fn] else [])
  ++ [Event.construct pos, Event.assignData pos pos]
  ++ randoms_fn.flatMap (fun fn =>
      (if root then [Event.readPositionsWeights fn] else [])
      ++ [Event.assignRandoms pos pos])
  ++ [Event.setDensityContrast, Event.runAlgo]
  ++ [Event.readShiftedData
        (if alg = ReconAlg.IterativeFFTParticleReconstruction then ShiftArg.tag "data"
         else ShiftArg.positions pos)
        (dataField convention)]
  ++ (if root then [Event.makeDir (dirname data_rec_fn),
                    Event.write data_rec_fn "fits" true] else [])
  ++ (if convention ≠ "rsd" then
        (randoms_fn.zip randoms_rec_fn).flatMap (fun p =>
          (if root then [Event.readCatalog p.1, Event.readPositionsWeights p.1] else [])
          ++ [Event.readShiftedRandoms pos (randomsField convention)]
          ++ (if root then [Event.makeDir (dirname p.2),
                            Event.write p.2 "fits" true] else []))
      else [])

/-- Python `s.startswith(p)`: `p` is a prefix of the character sequence of
`s`. -/
def startswith (s p : String) : Bool :=
  p.data.isPrefixOf s.data

/-- `get_bias` from the script: default tracer bias by tracer-name prefix. -/
def get_bias (tracer : String) : ℚ :=
  if startswith tracer "ELG" then 1.2
  else if startswith tracer "QSO" then 2.07
  else if startswith tracer "LRG" then 1.99
  else if startswith tracer "BGS" then 1.5
  else 1.2

/-- Lines 148-151: `bias = args.bias if args.bias is not None else get_bias(args.tracer)`. -/
def resolve_bias (biasArg : Option ℚ) (tracer : String) : ℚ :=
  match biasArg with
  | some b => b
  | none => get_bias tracer

/-- Lines 156-159: the resolved list of redshift values; `parseFloat` models
`float(...)` on a CLI token and `get_z_cutsky` models the default lookup
(repository code outside the script). -/
def resolve_zlims (parseFloat : String → ℚ) (get_z_cutsky : String → List ℚ)
    (tracer : String) (zlimArg : Option (List String)) : List ℚ :=
  match zlimArg with
  | some zl => zl.map parseFloat
  | none => get_z_cutsky tracer

/-- Line 160: `zlims = [(zlims[0], zlims[-1])]`; indexing an empty list
raises, modelled by `none`. -/
def zlims_ranges (zlims : List ℚ) : Option (List (ℚ × ℚ)) :=
  match zlims with
  | [] => none
  | z :: rest => some [(z, (z :: rest).getLast (List.cons_ne_nil z rest))]

/-! ### Concrete fixtures used by witnesses -/

/-- A tiny concrete catalog used to witness the table claims. -/
def exampleTable : String → List ℚ := fun c =>
  if c = "RA" then [10, 20] else if c = "DEC" then [30, 40]
  else if c = "Z" then [1, 2] else [7, 8]

/-! ### Value model of the root-rank catalog computation -/

/-- A catalog table, column-major: a column name maps to the list of its
values in row order.  (Only the columns present in the input matter to the
claims; absent names simply map to whatever the function says.) -/
def Table (α : Type) := String → List α

/-- Numpy boolean-mask row selection `t[mask]` on one column: keep the
entries whose mask bit is `true`, preserving order. -/
def maskSelect {α : Type} (mask : List Bool) (xs : List α) : List α :=
  (xs.zip mask).filterMap (fun p => if p.2 then some p.1 else none)

/-- `data = data[mask]` applied to a whole table. -/
def applyMask {α : Type} (mask : List Bool) (t : Table α) : Table α :=
  fun c => maskSelect mask (t c)

/-- `catalog[c] = v`: replace one column, leave every other column as is. -/
def setCol {α : Type} (t : Table α) (c : String) (v : List α) : Table α :=
  fun c2 => if c2 = c then v else t c2

/-- Elementwise ternary zip, the shape of a numpy op on three aligned arrays. -/
def zipWith3 {α β γ δ : Type} (f : α → β → γ → δ) : List α → List β → List γ → List δ
  | a :: as, b :: bs, c :: cs => f a b c :: zipWith3 f as bs cs
  | _, _, _ => []

/-- `utils.sky_to_cartesian(dist, ra, dec)` over aligned columns, with the
pointwise closed-form transform abstracted as `s2c`. -/
def sky_to_cartesian {α P : Type} (s2c : α → α → α → P)
    (dist ra dec : List α) : List P :=
  zipWith3 s2c dist ra dec

/-- `utils.cartesian_to_sky(positions)` over a column of points, with the
pointwise inverse transform abstracted as `c2s`; returns the `(dist, ra, dec)`
columns. -/
def cartesian_to_sky {α P : Type} (c2s : P → α × α × α)
    (ps : List P) : List α × List α × List α :=
  (ps.map (fun p => (c2s p).1), ps.map (fun p => (c2s p).2.1),
   ps.map (fun p => (c2s p).2.2))

/-- The `(ra, dec, z)` positions, weights and mask returned by
`read_positions_weights_cutsky`. -/
structure PositionsWeights (α : Type) where
  ra : List α
  dec : List α
  z : List α
  weights : List α
  mask : List Bool

/-- Modelled from the spec: `read_positions_weights_cutsky` lives in
`optimalrecon.io_tools`, repository code that is not under `src/`.  Per the
spec overview it loads a survey catalog's sky positions and weights; the
script uses its returned `mask` to select the same rows of the table, so the
returned `RA`, `DEC`, `Z` and weight columns are the catalog's columns
restricted to the mask-selected rows. -/
def read_positions_weights_cutsky {α : Type} (t : Table α) (mask : List Bool)
    (weights : List α) : PositionsWeights α :=
  { ra := maskSelect mask (t "RA"), dec := maskSelect mask (t "DEC"),
    z := maskSelect mask (t "Z"), weights := maskSelect mask weights,
    mask := mask }

/-- The table written out for one catalog on the root rank (lines 66-72 for
the data catalog, lines 76-89 for each randoms catalog): read the table and
the positions, select the masked rows, convert redshifts to distances and
sky coordinates to Cartesian positions, apply the reconstruction shift
(`shift`, the external `read_shifted_positions`), convert back to sky
coordinates, and overwrite exactly the `RA`, `DEC` and `Z` columns. -/
def shiftedCatalog {α P : Type} (s2c : α → α → α → P) (c2s : P → α × α × α)
    (distance : α → α) (d2z : α → α) (t : Table α) (mask : List Bool)
    (weights : List α) (shift : List P → List P) : Table α :=
  let pw := read_positions_weights_cutsky t mask weights
  let catalog := applyMask pw.mask t
  let dist := pw.z.map distance
  let positions := sky_to_cartesian s2c dist pw.ra pw.dec
  let positions_rec := shift positions
  let sky := cartesian_to_sky c2s positions_rec
  setCol (setCol (setCol catalog "RA" sky.2.1) "DEC" sky.2.2)
    "Z" (sky.1.map d2z)

/-- Abstract environment for the value model: table contents, masks and
weights per file name, and the two shift maps the external reconstruction
object provides after `run`. -/
structure Oracles (α P : Type) where
  readTable : String → Table α
  maskOf : String → List Bool
  weightsOf : String → List α
  shiftData : List P → List P
  shiftRandoms : List P → List P

/-- The list of `(file name, table)` pairs written by one root-rank call of
`run_reconstruction`: the data catalog, then (unless `convention = "rsd"`)
one randoms catalog per `zip(randoms_fn, randoms_rec_fn)` pair. -/
def run_reconstruction_outputs {α P : Type} (s2c : α → α → α → P)
    (c2s : P → α × α × α) (distance : α → α) (d2z : α → α)
    (O : Oracles α P) (convention data_fn : String) (randoms_fn : List String)
    (data_rec_fn : String) (randoms_rec_fn : List String) :
    List (String × Table α) :=
  (data_rec_fn,
    shiftedCatalog s2c c2s distance d2z (O.readTable data_fn)
      (O.maskOf data_fn) (O.weightsOf data_fn) O.shiftData)
  :: (if convention ≠ "rsd" then
        (randoms_fn.zip randoms_rec_fn).map (fun p =>
          (p.2, shiftedCatalog s2c c2s distance d2z (O.readTable p.1)
            (O.maskOf p.1) (O.weightsOf p.1) O.shiftRandoms))
      else [])

/-- Concrete oracles over `exampleTable` used to witness the table claims. -/
def exampleOracles : Oracles ℚ (ℚ × ℚ × ℚ) :=
  { readTable := fun _ => exampleTable, maskOf := fun _ => [true, false],
    weightsOf := fun _ => [0, 0], shiftData := id, shiftRandoms := id }

/-! ### Event predicates used to state the trace claims -/

/-- External-library lifecycle calls on the reconstruction object. -/
def isLifecycle : Event → Bool
  | Event.construct _ => true
  | Event.assignData _ _ => true
  | Event.assignRandoms _ _ => true
  | Event.setDensityContrast => true
  | Event.runAlgo => true
  | Event.readCatalog _ => false
  | Event.readPositionsWeights _ => false
  | Event.readShiftedData _ _ => false
  | Event.readShiftedRandoms _ _ => false
  | Event.makeDir _ => false
  | Event.write _ _ _ => false

/-- Lifecycle calls together with shifted-position reads and file writes. -/
def isLifecycleIO : Event → Bool
  | Event.construct _ => true
  | Event.assignData _ _ => true
  | Event.assignRandoms _ _ => true
  | Event.setDensityContrast => true
  | Event.runAlgo => true
  | Event.readShiftedData _ _ => true
  | Event.readShiftedRandoms _ _ => true
  | Event.write _ _ _ => true
  | Event.readCatalog _ => false
  | Event.readPositionsWeights _ => false
  | Event.makeDir _ => false

/-- File-system operations: catalog reads, directory creation, file writes. -/
def isFileIO : Event → Bool
  | Event.readCatalog _ => true
  | Event.readPositionsWeights _ => true
  | Event.makeDir _ => true
  | Event.write _ _ _ => true
  | Event.construct _ => false
  | Event.assignData _ _ => false
  | Event.assignRandoms _ _ => false
  | Event.setDensityContrast => false
  | Event.runAlgo => false
  | Event.readShiftedData _ _ => false
  | Event.readShiftedRandoms _ _ => false

/-- Reads of shifted positions (data or randoms). -/
def isReadShifted : Event → Bool
  | Event.readShiftedData _ _ => true
  | Event.readShiftedRandoms _ _ => true
  | _ => false

/-- Reads of shifted randoms positions. -/
def isReadShiftedRandoms : Event → Bool
  | Event.readShiftedRandoms _ _ => true
  | _ => false

/-- Reads of shifted data positions. -/
def isReadShiftedData : Event → Bool
  | Event.readShiftedData _ _ => true
  | _ => false

/-- Whole-table catalog reads (`Table.read`). -/
def isReadCatalog : Event → Bool
  | Event.readCatalog _ => true
  | _ => false

/-- File writes. -/
def isWrite : Event → Bool
  | Event.write _ _ _ => true
  | _ => false

/-- Directory creations and file writes. -/
def isMkdirWrite : Event → Bool
  | Event.makeDir _ => true
  | Event.write _ _ _ => true
  | _ => false

/-! ### Helper lemmas -/

/-- Two candidate prefixes that differ in their first character cannot both
be prefixes of the same list. -/
lemma isPrefixOf_false_of_head_ne {a b : Char} (p q l : List Char)
    (hab : a ≠ b) (h : (a :: p).isPrefixOf l = true) :
    (b :: q).isPrefixOf l = false := by
  cases l with
  | nil => simp [List.isPrefixOf] at h
  | cons c l2 =>
    simp only [List.isPrefixOf, Bool.and_eq_true, beq_iff_eq] at h
    have hbc : b ≠ c := fun hbc => hab (by rw [h.1, hbc])
    simp [List.isPrefixOf, beq_false_of_ne hbc]

/-- `startswith` for two candidate prefixes with distinct first characters. -/
lemma startswith_false_of_ne (s : String) {p q : String} {a b : Char}
    {ps qs : List Char} (hp : p.data = a :: ps) (hq : q.data = b :: qs)
    (hab : a ≠ b) (h : startswith s p = true) : startswith s q = false := by
  unfold startswith at h ⊢
  rw [hq]
  rw [hp] at h
  exact isPrefixOf_false_of_head_ne ps qs s.data hab h

/-! ### Claims about bias resolution (C3, C9) -/

/-- C3: the driver uses the `--bias` value when supplied and otherwise the
default from `get_bias`; `get_bias` returns 1.2 for tracers starting with
`ELG`, 2.07 for `QSO`, 1.99 for `LRG`, 1.5 for `BGS`, and its result depends
only on which of the four prefixes the tracer name carries. -/
theorem bias_resolution (b : ℚ) (t te tq tl tb t1 t2 : String)
    (he : startswith te "ELG" = true) (hq : startswith tq "QSO" = true)
    (hl : startswith tl "LRG" = true) (hb : startswith tb "BGS" = true)
    (h1 : startswith t1 "ELG" = startswith t2 "ELG")
    (h2 : startswith t1 "QSO" = startswith t2 "QSO")
    (h3 : startswith t1 "LRG" = startswith t2 "LRG")
    (h4 : startswith t1 "BGS" = startswith t2 "BGS") :
    resolve_bias (some b) t = b ∧
    resolve_bias none t = get_bias t ∧
    get_bias te = 1.2 ∧ get_bias tq = 2.07 ∧ get_bias tl = 1.99 ∧
    get_bias tb = 1.5 ∧ get_bias t1 = get_bias t2 := by
  refine ⟨rfl, rfl, ?_, ?_, ?_, ?_, ?_⟩
  · simp [get_bias, he]
  · have hE := startswith_false_of_ne tq (p := "QSO") (q := "ELG") rfl rfl
      (by decide) hq
    simp [get_bias, hE, hq]
  · have hE := startswith_false_of_ne tl (p := "LRG") (q := "ELG") rfl rfl
      (by decide) hl
    have hQ := startswith_false_of_ne tl (p := "LRG") (q := "QSO") rfl rfl
      (by decide) hl
    simp [get_bias, hE, hQ, hl]
  · have hE := startswith_false_of_ne tb (p := "BGS") (q := "ELG") rfl rfl
      (by decide) hb
    have hQ := startswith_false_of_ne tb (p := "BGS") (q := "QSO") rfl rfl
      (by decide) hb
    have hL := startswith_false_of_ne tb (p := "BGS") (q := "LRG") rfl rfl
      (by decide) hb
    simp [get_bias, hE, hQ, hL, hb]
  · unfold get_bias
    rw [h1, h2, h3, h4]

/-- Witness for `bias_resolution` at concrete tracers. -/
theorem bias_resolution_w :
    startswith "ELG_LOP" "ELG" = true ∧ startswith "QSO" "QSO" = true ∧
    startswith "LRG_main" "LRG" = true ∧ startswith "BGS_BRIGHT" "BGS" = true ∧
    (resolve_bias (some 2.5) "LRG" = 2.5 ∧
     resolve_bias none "LRG" = get_bias "LRG" ∧
     get_bias "ELG_LOP" = 1.2 ∧ get_bias "QSO" = 2.07 ∧
     get_bias "LRG_main" = 1.99 ∧ get_bias "BGS_BRIGHT" = 1.5 ∧
     get_bias "ELGx" = get_bias "ELGy") :=
  ⟨by decide, by decide, by decide, by decide,
   bias_resolution 2.5 "LRG" "ELG_LOP" "QSO" "LRG_main" "BGS_BRIGHT"
     "ELGx" "ELGy" (by decide) (by decide) (by decide) (by decide)
     (by decide) (by decide) (by decide) (by decide)⟩

/-- C9: `get_bias` is total and silently returns the fallback 1.2 (the same
value as for ELG) on any tracer that starts with none of the four known
prefixes. -/
theorem get_bias_fallback (t : String)
    (h1 : startswith t "ELG" = false) (h2 : startswith t "QSO" = false)
    (h3 : startswith t "LRG" = false) (h4 : startswith t "BGS" = false) :
    get_bias t = 1.2 ∧ get_bias t = get_bias "ELG" := by
  have ht : get_bias t = 1.2 := by simp [get_bias, h1, h2, h3, h4]
  refine ⟨ht, ?_⟩
  rw [ht]
  simp [get_bias, startswith]

/-- Witness for `get_bias_fallback` at a misspelled tracer name. -/
theorem get_bias_fallback_w :
    startswith "EGL_typo" "ELG" = false ∧ startswith "EGL_typo" "QSO" = false ∧
    startswith "EGL_typo" "LRG" = false ∧ startswith "EGL_typo" "BGS" = false ∧
    (get_bias "EGL_typo" = 1.2 ∧ get_bias "EGL_typo" = get_bias "ELG") :=
  ⟨by decide, by decide, by decide, by decide,
   get_bias_fallback "EGL_typo" (by decide) (by decide) (by decide) (by decide)⟩

/-! ### Claim about redshift-limit resolution (C7) -/

/-- C7: the `--zlim` values are parsed as floats when supplied, otherwise
the defaults come from `get_z_cutsky`; the processed list of ranges always
has exactly one entry, formed from the first and last resolved values, so
intermediate values are ignored. -/
theorem zlim_resolution (pf : String → ℚ) (gz : String → List ℚ)
    (tr : String) (l : List String) (a b : ℚ) (mid : List ℚ)
    (zl : List ℚ) (r : List (ℚ × ℚ)) (h : zlims_ranges zl = some r) :
    resolve_zlims pf gz tr (some l) = l.map pf ∧
    resolve_zlims pf gz tr none = gz tr ∧
    zlims_ranges (a :: (mid ++ [b])) = some [(a, b)] ∧
    r.length = 1 := by
  refine ⟨rfl, rfl, ?_, ?_⟩
  · have : (a :: (mid ++ [b])).getLast (List.cons_ne_nil a (mid ++ [b])) = b :=
      List.getLast_concat (a :: mid)
    simp [zlims_ranges, this]
  · cases zl with
    | nil => simp [zlims_ranges] at h
    | cons z rest =>
      simp only [zlims_ranges, Option.some_inj] at h
      rw [← h]
      rfl

/-- Witness for `zlim_resolution`: with three z-limit values only the first
and last survive. -/
theorem zlim_resolution_w :
    zlims_ranges [1, 2, 3] = some [(1, 3)] ∧
    (resolve_zlims (fun _ => 0) (fun _ => [1]) "ELG" (some ["0.8"]) =
       (["0.8"] : List String).map (fun _ => 0) ∧
     resolve_zlims (fun _ => 0) (fun _ => [1]) "ELG" none = [1] ∧
     zlims_ranges ((1 : ℚ) :: ([2] ++ [3])) = some [(1, 3)] ∧
     ([((1 : ℚ), (3 : ℚ))] : List (ℚ × ℚ)).length = 1) :=
  ⟨by decide,
   zlim_resolution (fun _ => 0) (fun _ => [1]) "ELG" ["0.8"] 1 3 [2]
     [1, 2, 3] [(1, 3)] (by decide)⟩

lemma flatMap_const_singleton {α β : Type} (l : List α) (b : β) :
    l.flatMap (fun _ => [b]) = l.map (fun _ => b) := by
  induction l with
  | nil => rfl
  | cons a t ih => simp [ih]

lemma flatMap_const_nil {α β : Type} (l : List α) :
    l.flatMap (fun _ => ([] : List β)) = [] := by
  induction l with
  | nil => rfl
  | cons a t ih => simp [ih]

/-! ### Claims about the call trace (C1, C2, C6, C8, C10) -/

/-- C1: every call of `run_reconstruction` drives the external object in the
order construct, one `assign_data`, one `assign_randoms` per randoms file,
`set_density_contrast`, `run`; only after `run` are shifted positions read
and results written.  The first conjunct pins the lifecycle-call subsequence,
the second pins the same subsequence extended with shifted-position reads
and writes, showing they all come after `run`. -/
theorem lifecycle_order (alg : ReconAlg) (root : Bool) (conv data_fn : String)
    (rfns : List String) (drfn : String) (rrfns : List String)
    (dn : String → String) :
    (run_reconstruction_trace alg root conv data_fn rfns drfn rrfns dn).filter
        isLifecycle =
      [Event.construct (rootPositions root),
       Event.assignData (rootPositions root) (rootPositions root)]
      ++ rfns.map (fun _ =>
           Event.assignRandoms (rootPositions root) (rootPositions root))
      ++ [Event.setDensityContrast, Event.runAlgo] ∧
    (run_reconstruction_trace alg root conv data_fn rfns drfn rrfns dn).filter
        isLifecycleIO =
      [Event.construct (rootPositions root),
       Event.assignData (rootPositions root) (rootPositions root)]
      ++ rfns.map (fun _ =>
           Event.assignRandoms (rootPositions root) (rootPositions root))
      ++ [Event.setDensityContrast, Event.runAlgo,
          Event.readShiftedData
            (if alg = ReconAlg.IterativeFFTParticleReconstruction
             then ShiftArg.tag "data"
             else ShiftArg.positions (rootPositions root))
            (dataField conv)]
      ++ (if root then [Event.write drfn "fits" true] else [])
      ++ (if conv ≠ "rsd" then
            (rfns.zip rrfns).flatMap (fun p =>
              Event.readShiftedRandoms (rootPositions root) (randomsField conv)
              :: (if root then [Event.write p.2 "fits" true] else []))
          else []) := by
  constructor <;>
  · unfold run_reconstruction_trace
    by_cases hc : conv = "rsd" <;> cases root <;>
      simp [hc, isLifecycle, isLifecycleIO, List.filter_append,
        List.filter_flatMap, flatMap_const_singleton, flatMap_const_nil]

/-- C2: the data shifted positions are always read with field `disp+rsd`
except under the `rsd` convention, and the randoms shifted positions are
read with field `disp+rsd` under `recsym` and `disp` under `reciso`. -/
theorem convention_fields (alg : ReconAlg) (root : Bool) (conv data_fn : String)
    (rfns : List String) (drfn : String) (rrfns : List String)
    (dn : String → String) :
    (run_reconstruction_trace alg root conv data_fn rfns drfn rrfns dn).filter
        isReadShifted =
      Event.readShiftedData
        (if alg = ReconAlg.IterativeFFTParticleReconstruction
         then ShiftArg.tag "data"
         else ShiftArg.positions (rootPositions root))
        (if conv = "rsd" then "rsd" else "disp+rsd")
      :: (if conv = "rsd" then []
          else (rfns.zip rrfns).map (fun _ =>
            Event.readShiftedRandoms (rootPositions root)
              (if conv = "recsym" then "disp+rsd" else "disp"))) ∧
    dataField "recsym" = "disp+rsd" ∧ dataField "reciso" = "disp+rsd" ∧
    dataField "rsd" = "rsd" ∧
    randomsField "recsym" = "disp+rsd" ∧ randomsField "reciso" = "disp" := by
  refine ⟨?_, rfl, rfl, rfl, rfl, rfl⟩
  unfold run_reconstruction_trace
  by_cases hc : conv = "rsd" <;> cases root <;>
    simp [hc, isReadShifted, List.filter_append, List.filter_flatMap,
      flatMap_const_singleton, dataField, randomsField]

/-- C6: on a non-root rank, `run_reconstruction` performs no catalog read,
no directory creation and no file write, and passes `None` positions and
weights to the construct, `assign_data` and `assign_randoms` calls (the
trace is exactly the lifecycle with `none` payloads). -/
theorem nonroot_no_file_io (alg : ReconAlg) (conv data_fn : String)
    (rfns : List String) (drfn : String) (rrfns : List String)
    (dn : String → String) :
    (run_reconstruction_trace alg false conv data_fn rfns drfn rrfns dn).filter
        isFileIO = [] ∧
    run_reconstruction_trace alg false conv data_fn rfns drfn rrfns dn =
      [Event.construct none, Event.assignData none none]
      ++ rfns.map (fun _ => Event.assignRandoms none none)
      ++ [Event.setDensityContrast, Event.runAlgo,
          Event.readShiftedData
            (if alg = ReconAlg.IterativeFFTParticleReconstruction
             then ShiftArg.tag "data" else ShiftArg.positions none)
            (dataField conv)]
      ++ (if conv ≠ "rsd" then
            (rfns.zip rrfns).map (fun _ =>
              Event.readShiftedRandoms none (randomsField conv))
          else []) := by
  constructor <;>
  · unfold run_reconstruction_trace
    by_cases hc : conv = "rsd" <;>
      simp [hc, isFileIO, List.filter_append, List.filter_flatMap,
        flatMap_const_singleton, rootPositions]

/-- C8: the `--algorithm` value selects the reconstruction class through the
dictionary `MG`, `IFT`, `IFTP`, and the shifted data positions are read via
the `'data'` tag exactly when the selected class is
`IterativeFFTParticleReconstruction`, otherwise by passing the position
array. -/
theorem algorithm_selection (alg : ReconAlg) (root : Bool)
    (conv data_fn : String) (rfns : List String) (drfn : String)
    (rrfns : List String) (dn : String → String) :
    algorithmTable "MG" = some ReconAlg.MultiGridReconstruction ∧
    algorithmTable "IFT" = some ReconAlg.IterativeFFTReconstruction ∧
    algorithmTable "IFTP" = some ReconAlg.IterativeFFTParticleReconstruction ∧
    (run_reconstruction_trace alg root conv data_fn rfns drfn rrfns dn).filter
        isReadShiftedData =
      [Event.readShiftedData
        (if alg = ReconAlg.IterativeFFTParticleReconstruction
         then ShiftArg.tag "data"
         else ShiftArg.positions (rootPositions root))
        (dataField conv)] ∧
    ((if alg = ReconAlg.IterativeFFTParticleReconstruction
      then ShiftArg.tag "data"
      else ShiftArg.positions (rootPositions root)) = ShiftArg.tag "data"
     ↔ alg = ReconAlg.IterativeFFTParticleReconstruction) := by
  refine ⟨rfl, rfl, rfl, ?_, ?_⟩
  · unfold run_reconstruction_trace
    by_cases hc : conv = "rsd" <;> cases root <;>
      simp [hc, isReadShiftedData, List.filter_append, List.filter_flatMap,
        flatMap_const_singleton, flatMap_const_nil]
  · cases alg <;> simp

/-- C10: under the (CLI-inadmissible) `rsd` convention the whole
randoms-output stage is skipped: no randoms shifted positions are read, the
only whole-table catalog read is the data catalog, the only file written is
the data output, and the data shifted positions are read with field `rsd`. -/
theorem rsd_skips_randoms_output (alg : ReconAlg) (root : Bool)
    (data_fn : String) (rfns : List String) (drfn : String)
    (rrfns : List String) (dn : String → String) :
    (run_reconstruction_trace alg root "rsd" data_fn rfns drfn rrfns dn).filter
        isReadShiftedRandoms = [] ∧
    (run_reconstruction_trace alg root "rsd" data_fn rfns drfn rrfns dn).filter
        isReadCatalog = (if root then [Event.readCatalog data_fn] else []) ∧
    (run_reconstruction_trace alg root "rsd" data_fn rfns drfn rrfns dn).filter
        isWrite = (if root then [Event.write drfn "fits" true] else []) ∧
    (run_reconstruction_trace alg root "rsd" data_fn rfns drfn rrfns dn).filter
        isReadShiftedData =
      [Event.readShiftedData
        (if alg = ReconAlg.IterativeFFTParticleReconstruction
         then ShiftArg.tag "data"
         else ShiftArg.positions (rootPositions root)) "rsd"] ∧
    conventionChoices.contains "rsd" = false := by
  refine ⟨?_, ?_, ?_, ?_, by decide⟩ <;>
  · unfold run_reconstruction_trace
    cases root <;>
      simp [isReadShiftedRandoms, isReadCatalog, isWrite, isReadShiftedData,
        List.filter_append, List.filter_flatMap, flatMap_const_singleton,
        dataField]

/-! ### Lemmas for the value model -/

lemma maskSelect_cons {α : Type} (b : Bool) (m : List Bool) (x : α)
    (xs : List α) :
    maskSelect (b :: m) (x :: xs) = (if b then [x] else []) ++ maskSelect m xs := by
  cases b <;> simp [maskSelect]

lemma maskSelect_sublist {α : Type} (mask : List Bool) (xs : List α) :
    (maskSelect mask xs).Sublist xs := by
  induction xs generalizing mask with
  | nil => simp [maskSelect]
  | cons x xs ih =>
    cases mask with
    | nil => simp [maskSelect]
    | cons b m =>
      rw [maskSelect_cons]
      cases b
      · exact (ih m).cons x
      · exact (ih m).cons₂ x

lemma maskSelect_length_eq {α β : Type} (mask : List Bool) (xs : List α)
    (ys : List β) (h : xs.length = ys.length) :
    (maskSelect mask xs).length = (maskSelect mask ys).length := by
  induction xs generalizing ys mask with
  | nil =>
    cases ys with
    | nil => rfl
    | cons y ys => simp at h
  | cons x xs ih =>
    cases ys with
    | nil => simp at h
    | cons y ys =>
      cases mask with
      | nil => simp [maskSelect]
      | cons b m =>
        rw [maskSelect_cons, maskSelect_cons]
        cases b <;> simp [ih m ys (by simpa using h)]

lemma zipWith3_map_roundtrip {α P : Type} (s2c : α → α → α → P)
    (c2s : P → α × α × α) (hinv : ∀ d r e, c2s (s2c d r e) = (d, r, e)) :
    ∀ (ds rs es : List α), ds.length = rs.length → rs.length = es.length →
      (zipWith3 s2c ds rs es).map (fun p => (c2s p).1) = ds ∧
      (zipWith3 s2c ds rs es).map (fun p => (c2s p).2.1) = rs ∧
      (zipWith3 s2c ds rs es).map (fun p => (c2s p).2.2) = es := by
  intro ds
  induction ds with
  | nil =>
    intro rs es h1 h2
    cases rs with
    | nil =>
      cases es with
      | nil => exact ⟨rfl, rfl, rfl⟩
      | cons e es => simp at h2
    | cons r rs => simp at h1
  | cons d ds ih =>
    intro rs es h1 h2
    cases rs with
    | nil => simp at h1
    | cons r rs =>
      cases es with
      | nil => simp at h2
      | cons e es =>
        obtain ⟨i1, i2, i3⟩ := ih rs es (by simpa using h1) (by simpa using h2)
        exact ⟨by simp [zipWith3, hinv, i1], by simp [zipWith3, hinv, i2],
               by simp [zipWith3, hinv, i3]⟩

lemma shiftedCatalog_other_col {α P : Type} (s2c : α → α → α → P)
    (c2s : P → α × α × α) (distance : α → α) (d2z : α → α) (t : Table α)
    (mask : List Bool) (w : List α) (shift : List P → List P) (col : String)
    (hra : col ≠ "RA") (hdec : col ≠ "DEC") (hz : col ≠ "Z") :
    shiftedCatalog s2c c2s distance d2z t mask w shift col =
      maskSelect mask (t col) := by
  simp [shiftedCatalog, setCol, applyMask, read_positions_weights_cutsky,
    hra, hdec, hz]

/-! ### Claims about the written catalogs (C4, C5) -/

/-- C4: every output catalog (the data catalog and, when the convention is
not `rsd`, one per randoms file) is the mask-selected input table with only
the `RA`, `DEC`, `Z` columns replaced: any other column equals the
mask-selected input column, mask selection preserves row order (it is a
sublist), and each file is written in FITS format with overwrite enabled
immediately after its output directory is created. -/
theorem output_catalog_frame {α P : Type} (s2c : α → α → α → P)
    (c2s : P → α × α × α) (distance : α → α) (d2z : α → α)
    (t : Table α) (mask : List Bool) (w : List α) (shift : List P → List P)
    (col : String) (hra : col ≠ "RA") (hdec : col ≠ "DEC") (hz : col ≠ "Z")
    (O : Oracles α P) (conv data_fn : String) (rfns : List String)
    (drfn : String) (rrfns : List String) (alg : ReconAlg) (root : Bool)
    (dn : String → String) :
    shiftedCatalog s2c c2s distance d2z t mask w shift col =
      maskSelect mask (t col) ∧
    (maskSelect mask (t col)).Sublist (t col) ∧
    (run_reconstruction_outputs s2c c2s distance d2z O conv data_fn rfns
        drfn rrfns).map (fun pr => pr.2 col) =
      maskSelect (O.maskOf data_fn) (O.readTable data_fn col)
      :: (if conv ≠ "rsd" then
            (rfns.zip rrfns).map (fun p =>
              maskSelect (O.maskOf p.1) (O.readTable p.1 col))
          else []) ∧
    (run_reconstruction_trace alg root conv data_fn rfns drfn rrfns dn).filter
        isMkdirWrite =
      (if root then [Event.makeDir (dn drfn), Event.write drfn "fits" true]
       else [])
      ++ (if conv ≠ "rsd" then
            (rfns.zip rrfns).flatMap (fun p =>
              if root then [Event.makeDir (dn p.2), Event.write p.2 "fits" true]
              else [])
          else []) := by
  refine ⟨shiftedCatalog_other_col s2c c2s distance d2z t mask w shift col
            hra hdec hz,
          maskSelect_sublist mask (t col), ?_, ?_⟩
  · by_cases hc : conv = "rsd" <;>
      simp [hc, run_reconstruction_outputs, shiftedCatalog_other_col,
        hra, hdec, hz]
  · unfold run_reconstruction_trace
    by_cases hc : conv = "rsd" <;> cases root <;>
      simp [hc, isMkdirWrite, List.filter_append, List.filter_flatMap,
        flatMap_const_singleton, flatMap_const_nil]

/-- Witness for `output_catalog_frame` on the `WEIGHT` column of a concrete
catalog. -/
theorem output_catalog_frame_w :
    shiftedCatalog (fun d r e => (d, r, e)) id (id : ℚ → ℚ) id exampleTable
        [true, false] [0, 0] id "WEIGHT" =
      maskSelect [true, false] (exampleTable "WEIGHT") ∧
    (maskSelect [true, false] (exampleTable "WEIGHT")).Sublist
      (exampleTable "WEIGHT") ∧
    (run_reconstruction_outputs (fun d r e => (d, r, e)) id id id
        exampleOracles "reciso" "data.fits" ["r1.fits"] "data_out.fits"
        ["r1_out.fits"]).map (fun pr => pr.2 "WEIGHT") =
      maskSelect (exampleOracles.maskOf "data.fits")
          (exampleOracles.readTable "data.fits" "WEIGHT")
      :: (if "reciso" ≠ "rsd" then
            (["r1.fits"].zip ["r1_out.fits"]).map (fun p =>
              maskSelect (exampleOracles.maskOf p.1)
                (exampleOracles.readTable p.1 "WEIGHT"))
          else []) ∧
    (run_reconstruction_trace ReconAlg.MultiGridReconstruction true "reciso"
        "data.fits" ["r1.fits"] "data_out.fits" ["r1_out.fits"]
        (fun _ => "out")).filter isMkdirWrite =
      (if true then [Event.makeDir "out", Event.write "data_out.fits" "fits" true]
       else [])
      ++ (if "reciso" ≠ "rsd" then
            ((["r1.fits"] : List String).zip ["r1_out.fits"]).flatMap (fun p =>
              if true then [Event.makeDir "out", Event.write p.2 "fits" true]
              else [])
          else []) :=
  output_catalog_frame (fun d r e => (d, r, e)) id id id exampleTable
    [true, false] [0, 0] id "WEIGHT" (by decide) (by decide) (by decide)
    exampleOracles "reciso" "data.fits" ["r1.fits"] "data_out.fits"
    ["r1_out.fits"] ReconAlg.MultiGridReconstruction true (fun _ => "out")

/-- C5: the script converts each catalog to Cartesian positions by applying
the distance model to the redshift column and the sky-to-cartesian transform,
and converts shifted positions back with the inverse pair; hence when the
reconstruction shift is the identity and the transforms invert each other,
the written `RA`, `DEC` and `Z` columns equal the mask-selected input
columns. -/
theorem sky_roundtrip {α P : Type} (s2c : α → α → α → P)
    (c2s : P → α × α × α) (distance : α → α) (d2z : α → α)
    (t : Table α) (mask : List Bool) (w : List α)
    (hinv : ∀ d r e, c2s (s2c d r e) = (d, r, e))
    (hz : ∀ x, d2z (distance x) = x)
    (hra : (t "RA").length = (t "Z").length)
    (hdec : (t "DEC").length = (t "Z").length) :
    shiftedCatalog s2c c2s distance d2z t mask w id "RA" =
      maskSelect mask (t "RA") ∧
    shiftedCatalog s2c c2s distance d2z t mask w id "DEC" =
      maskSelect mask (t "DEC") ∧
    shiftedCatalog s2c c2s distance d2z t mask w id "Z" =
      maskSelect mask (t "Z") := by
  have lra : ((maskSelect mask (t "Z")).map distance).length =
      (maskSelect mask (t "RA")).length := by
    rw [List.length_map]
    exact maskSelect_length_eq mask (t "Z") (t "RA") hra.symm
  have lde : (maskSelect mask (t "RA")).length =
      (maskSelect mask (t "DEC")).length :=
    maskSelect_length_eq mask (t "RA") (t "DEC") (hra.trans hdec.symm)
  obtain ⟨r1, r2, r3⟩ := zipWith3_map_roundtrip s2c c2s hinv
    ((maskSelect mask (t "Z")).map distance) (maskSelect mask (t "RA"))
    (maskSelect mask (t "DEC")) lra lde
  refine ⟨?_, ?_, ?_⟩
  · simp [shiftedCatalog, setCol, read_positions_weights_cutsky,
      sky_to_cartesian, cartesian_to_sky, r2]
  · simp [shiftedCatalog, setCol, read_positions_weights_cutsky,
      sky_to_cartesian, cartesian_to_sky, r3]
  · have h1 := congrArg (List.map d2z) r1
    rw [List.map_map, List.map_map] at h1
    simp only [Function.comp_def] at h1
    simp only [hz, List.map_id'] at h1
    simp [shiftedCatalog, setCol, read_positions_weights_cutsky,
      sky_to_cartesian, cartesian_to_sky, List.map_map, Function.comp_def, h1]

/-- Witness for `sky_roundtrip` on a concrete catalog with identity
transforms. -/
theorem sky_roundtrip_w :
    shiftedCatalog (fun d r e => (d, r, e)) id (id : ℚ → ℚ) id exampleTable
        [true, false] [0, 0] id "RA" =
      maskSelect [true, false] (exampleTable "RA") ∧
    shiftedCatalog (fun d r e => (d, r, e)) id id id exampleTable
        [true, false] [0, 0] id "DEC" =
      maskSelect [true, false] (exampleTable "DEC") ∧
    shiftedCatalog (fun d r e => (d, r, e)) id id id exampleTable
        [true, false] [0, 0] id "Z" =
      maskSelect [true, false] (exampleTable "Z") :=
  sky_roundtrip (fun d r e => (d, r, e)) id id id exampleTable
    [true, false] [0, 0] (fun _ _ _ => rfl) (fun _ => rfl)
    (by decide) (by decide)

end ReconCutsky
